import Mathlib

/-!
Verification of the torncache memcached client (torncache/client.py)
against its natural-language specification.

The Python source is shallowly embedded: pure fragments become Lean
functions; the stateful connection/pool code becomes explicit state
passing over small state records; the socket is modelled as a script
of network events consumed by successive reads, and the I/O the code
performs is collected into an explicit trace of actions.  Exceptions
become `Except` / an explicit `Outcome` type.
-/

namespace Torncache

/-! ## Errors (client.py lines 62-102, plus Python built-ins)

The `MemcacheError` hierarchy, together with the Python built-in
exceptions that the code can raise or catch (`IOError`/`OSError` from
the socket layer, `ValueError` from unpacking/int(), `KeyError` from
dict lookup).  `isinstance(err, (IOError, OSError))` is the code's
test for a transport-level failure, embedded as `isTransport`. -/
inductive MCError where
  | poolError (msg : String)            -- MemcachePoolError
  | timeoutError (reason : String)      -- MemcacheTimeoutError
  | clientError (msg : String)          -- MemcacheClientError
  | unknownCommandError (name : String) -- MemcacheUnknownCommandError
  | illegalInputError (msg : String)    -- MemcacheIllegalInputError
  | serverError (msg : String)          -- MemcacheServerError
  | unknownError (line : String)        -- MemcacheUnknownError
  | ioError (msg : String)              -- Python IOError / OSError (transport)
  | valueError (msg : String)           -- Python ValueError
  | keyError (key : String)             -- Python KeyError
deriving Repr, DecidableEq

/-- `isinstance(err, (IOError, OSError))`: only socket/OS failures are
transport-level; none of the Memcache* exceptions derive from IOError. -/
def MCError.isTransport : MCError → Bool
  | .ioError _ => true
  | _ => false

/-- Is this a `MemcacheIllegalInputError`? -/
def MCError.isIllegalInput : MCError → Bool
  | .illegalInputError _ => true
  | _ => false

/-! ## VALID_STORE_RESULTS (client.py lines 27-34) -/

/-- The per-command store reply acceptance table.  Lookup of a missing
key models Python's `KeyError` via `none`. -/
def VALID_STORE_RESULTS : String → Option (List String)
  | "set"     => some ["STORED"]
  | "add"     => some ["STORED", "NOT_STORED"]
  | "replace" => some ["STORED", "NOT_STORED"]
  | "append"  => some ["STORED", "NOT_STORED"]
  | "prepend" => some ["STORED", "NOT_STORED"]
  | "cas"     => some ["STORED", "EXISTS", "NOT_FOUND"]
  | _         => none

/-! ## Computable string primitives

Python string operations used by the source, expressed over the
character list so that every definition evaluates inside the kernel
(the corresponding `String` library functions use well-founded
recursion and do not reduce definitionally). -/

/-- Python `s.startswith(p)`. -/
def pyStartsWith (s p : String) : Bool :=
  p.toList.isPrefixOf s.toList

/-- Python `s[:n]` for `n ≥ 0`. -/
def strTake (s : String) (n : Nat) : String :=
  ⟨s.toList.take n⟩

/-- Python `s[:-n]` (for `n ≤ len(s)`; empty-result clamping agrees). -/
def strDropRight (s : String) (n : Nat) : String :=
  ⟨s.toList.take (s.toList.length - n)⟩

/-- Python `c in s` for a single character. -/
def strContains (s : String) (c : Char) : Bool :=
  s.toList.contains c

/-- Every character of `s` satisfies `p`. -/
def strAll (s : String) (p : Char → Bool) : Bool :=
  s.toList.all p

/-- Split a character list at every occurrence of `sep`. -/
def splitChar (sep : Char) : List Char → List (List Char)
  | [] => [[]]
  | c :: rest =>
    if c = sep then
      [] :: splitChar sep rest
    else
      match splitChar sep rest with
      | [] => [[c]]
      | w :: ws => (c :: w) :: ws

/-- Python `line.split()` on space-separated reply lines: split on the
separator and drop empty parts (so runs of spaces collapse). -/
def pySplit (line : String) : List String :=
  ((splitChar ' ' line.toList).filter (fun w => w ≠ [])).map
    (fun w => (⟨w⟩ : String))

/-- `"sep".join(parts)`, i.e. `' '.join(key_strs)`. -/
def joinSep (sep : String) : List String → String
  | [] => ""
  | [x] => x
  | x :: rest => x ++ sep ++ joinSep sep rest

/-- Strict decimal digit parse. -/
def digitsVal : List Char → Option Nat
  | [] => none
  | l => l.foldl
      (fun acc c =>
        match acc with
        | none => none
        | some n => if c.isDigit then some (n * 10 + (c.toNat - 48)) else none)
      (some 0)

/-- Python `int(s)` on a decimal string, possibly negative.  (Python
also tolerates surrounding whitespace and an explicit plus sign;
reply fields never carry those.) -/
def pyInt? (s : String) : Option Int :=
  match s.toList with
  | '-' :: rest => (digitsVal rest).map (fun n => -(n : Int))
  | l => (digitsVal l).map (fun n => (n : Int))

/-! ## Connection._raise_errors (client.py lines 853-863) -/

/-- `line[line.find(' ') + 1:]` — everything after the first space, or
the whole line when there is no space (Python `find` returns -1, and
`line[0:]` is `line`). -/
def afterFirstSpace (line : String) : String :=
  match line.toList.indexOf? ' ' with
  | none => line
  | some i => ⟨line.toList.drop (i + 1)⟩

/-- `Connection._raise_errors(line, name)`: translate a wire reply line
that announces an error into the corresponding exception. -/
def raise_errors (line name : String) : Except MCError Unit :=
  if pyStartsWith line "ERROR" then
    .error (.unknownCommandError name)
  else if pyStartsWith line "CLIENT_ERROR" then
    .error (.clientError (afterFirstSpace line))
  else if pyStartsWith line "SERVER_ERROR" then
    .error (.serverError (afterFirstSpace line))
  else
    .ok ()

/-! ## Store reply handling (client.py lines 1064-1080)

After `store_cmd` reads the reply line (already stripped of CRLF) it
runs `_raise_errors` and then the acceptance-table dispatch.  The
result passed to the callback is `True` / `False` / `None`, embedded
as `Option Bool` (`none` = Python `None`).  The outer `Option` records
whether the callback was invoked at all: the Python `if`-chain inside
the table-membership branch has no `else`, so a table entry matching
none of the four literals would fall through without a callback
(dead code, since every table entry is one of the four literals). -/
def store_handle_reply (name line : String) :
    Except MCError (Option (Option Bool)) := do
  raise_errors line name
  match VALID_STORE_RESULTS name with
  | none => .error (.keyError name)
  | some table =>
    if line ∈ table then
      if line = "STORED" then .ok (some (some true))
      else if line = "NOT_STORED" then .ok (some (some false))
      else if line = "NOT_FOUND" then .ok (some none)
      else if line = "EXISTS" then .ok (some (some false))
      else .ok none
    else
      .error (.unknownError (strTake line 32))

/-! ## Client.__init__ bucket construction (client.py lines 242-254) -/

/-- One entry of the server list handed to `Client`: a bare
`"host"` / `"host:port"` string, or a `(host, weight)` pair. -/
inductive ServerSpec where
  | host (h : String)
  | weighted (h : String) (w : Nat)
deriving Repr, DecidableEq

/-- The identity data of a `Connection` relevant to sharding, as parsed
by `Connection.__init__` (client.py lines 816-825): weight (1 unless a
pair was given), ip and port (11211 unless the host carries `:port`). -/
structure ConnCfg where
  ip : String
  port : Nat
  weight : Nat
deriving Repr, DecidableEq

/-- `host.partition(":")`: the part before the first colon and the
part after it. -/
def partitionColon : List Char → List Char × List Char
  | [] => ([], [])
  | c :: rest =>
    if c = ':' then
      ([], rest)
    else
      let (a, b) := partitionColon rest
      (c :: a, b)

/-- `host.partition(":")`-based parsing in `Connection.__init__`
(client.py lines 822-825): ip before the colon, `int(port)` after it,
port 11211 when there is no colon.  (`int()` raising `ValueError` on
a malformed port string is not modelled; well-formed ports agree.) -/
def parseHostPort (host : String) : String × Nat :=
  if strContains host ':' then
    let (ip, port) := partitionColon host.toList
    (⟨ip⟩, (digitsVal port).getD 0)
  else
    (host, 11211)

/-- `Connection.__init__` host/weight parsing. -/
def mkConnection : ServerSpec → ConnCfg
  | .host h =>
    let (ip, port) := parseHostPort h
    ⟨ip, port, 1⟩
  | .weighted h w =>
    let (ip, port) := parseHostPort h
    ⟨ip, port, w⟩

/-- The weight the spec entry carries (1 for a bare host). -/
def ServerSpec.weight : ServerSpec → Nat
  | .host _ => 1
  | .weighted _ w => w

/-- The `Client.__init__` loop over `servers` (client.py lines 250-254):
for each entry build a Connection, append it `weight` times to
`self._buckets` and once to `self._servers`.  Returns
(buckets, servers). -/
def client_init (servers : List ServerSpec) : List ConnCfg × List ConnCfg :=
  servers.foldl
    (fun acc spec =>
      let server := mkConnection spec
      (acc.1 ++ List.replicate server.weight server, acc.2 ++ [server]))
    ([], [])

/-- The bucket table a `Client` builds. -/
def client_buckets (servers : List ServerSpec) : List ConnCfg :=
  (client_init servers).1

/-! ## Client._get_server (client.py lines 267-275) -/

/-- A key as accepted by `_get_server`: either a plain string, or an
explicit `(hash, realKey)` pair (manual routing override). -/
inductive MCKey where
  | plain (k : String)
  | tagged (h : Int) (k : String)
deriving Repr, DecidableEq

/-- `Client._get_server(key)`.  `hashFn` stands for Python's built-in
string `hash` (stable within a process).  `none` corresponds to the
`ZeroDivisionError` Python raises when the bucket table is empty.
Python `%` on a positive modulus is Euclidean, as is `Int.emod`. -/
def get_server (buckets : List ConnCfg) (hashFn : String → Int) :
    MCKey → Option (ConnCfg × String)
  | .tagged h k =>
    (buckets.get? (h % (buckets.length : Int)).toNat).map (fun c => (c, k))
  | .plain k =>
    let serverhash : Int := if buckets.length > 1 then hashFn k else 0
    (buckets.get? (serverhash % (buckets.length : Int)).toNat).map
      (fun c => (c, k))

/-! ## Connection state and the socket model

The mutable per-connection state that the claims depend on
(`Connection.__init__`, client.py lines 812-845).  `connected`
abstracts `self._stream is open and self._connect_callbacks is None`;
`dead_until`/`dead_retry` are the quarantine fields.  Timers are
real-time behaviour and are not modelled; current time is passed
explicitly where the code calls `time.time()`. -/
structure ConnState where
  ignore_exc : Bool
  dead_until : Nat
  dead_retry : Nat
  connected : Bool
deriving Repr, DecidableEq

/-- One result handed back by the stream for a read
(`read_until` / `read_bytes`): either data, or a transport failure
(IOError/OSError).  A command run consumes these in order. -/
inductive NetEvent where
  | ok (data : String)
  | fail (msg : String)
deriving Repr, DecidableEq

/-- The observable I/O a command run performs, in order. -/
inductive IOAction where
  | tcpConnect
  | write (data : String)
  | readLine
  | readBytes (n : Nat)
deriving Repr, DecidableEq

/-- How a command run ends for the caller: an exception propagates, or
the completion callback is invoked with a value. -/
inductive Outcome (α : Type) where
  | raised (e : MCError)
  | completed (v : α)
deriving Repr, DecidableEq

/-- A full command run: the I/O performed, the connection state left
behind, and the caller-visible outcome. -/
structure CmdRun (α : Type) where
  trace : List IOAction
  state : ConnState
  outcome : Outcome α
deriving Repr, DecidableEq

/-! ## Connection.mark_dead (client.py lines 883-889) -/

/-- `mark_dead(reason)`: if not already inside a quarantine window,
start one of `dead_retry` seconds, cancel timers and close the
socket.  Idempotent while quarantined. -/
def mark_dead (st : ConnState) (now : Nat) : ConnState :=
  if st.dead_until < now then
    { st with dead_until := now + st.dead_retry, connected := false }
  else
    st

/-! ## Connection.connect (client.py lines 891-946) -/

/-- The quarantine message built at client.py lines 917-918. -/
def deadMsg (st : ConnState) (now : Nat) : String :=
  "Server will stay dead next " ++ toString (st.dead_until - now) ++ " secs"

/-- `connect(callback)`, as one synchronous step.  The quarantine check
comes first: while `now < dead_until` the call raises a
`MemcacheClientError` before any socket is created.  Past the window
`dead_until` is reset to 0; if the connection is already established
(`_connect_callbacks is None`) the callback fires with no I/O,
otherwise a TCP handshake is performed (modelled as succeeding). -/
def connect (st : ConnState) (now : Nat) :
    Except MCError (ConnState × List IOAction) :=
  if st.dead_until > now then
    .error (.clientError (deadMsg st now))
  else if st.connected then
    .ok ({ st with dead_until := 0 }, [])
  else
    .ok ({ st with dead_until := 0, connected := true }, [.tcpConnect])

/-! ## Key / value validation (client.py lines 953-964 and 1020-1036) -/

/-- Python 2 `str(x)` on a text value under the default ascii codec:
identity when every character is ASCII, `UnicodeEncodeError`
otherwise.  Both `fetch_cmd` and `store_cmd` convert that exception
into `MemcacheIllegalInputError`. -/
def pyStr (s : String) : Except MCError String :=
  if strAll s (fun c => c.toNat < 128) then .ok s
  else .error (.illegalInputError "UnicodeEncodeError")

/-- The `fetch_cmd` key loop (client.py lines 955-964): `str` each key,
reject a key containing a space (`' ' in key`) with
`MemcacheIllegalInputError`, accumulate the rest in order. -/
def validate_keys : List String → Except MCError (List String)
  | [] => .ok []
  | k :: rest => do
    let ks ← pyStr k
    if strContains ks ' ' then
      .error (.illegalInputError ("Key contains spaces: " ++ ks))
    else do
      let tail ← validate_keys rest
      .ok (ks :: tail)

/-! ## Connection.fetch_cmd (client.py lines 952-1015) -/

/-- A fetched value: plain payload, or payload plus cas token when
`expect_cas` is set. -/
inductive FetchVal where
  | plain (v : String)
  | withCas (v : String) (cas : String)
deriving Repr, DecidableEq

/-- Python dict assignment `m[k] = v` on an association list:
overwrite in place if the key is present, else append. -/
def dictSet (m : List (String × α)) (k : String) (v : α) :
    List (String × α) :=
  if (m.lookup k).isSome then
    m.map (fun p => if p.1 = k then (k, v) else p)
  else
    m ++ [(k, v)]

/-- The response loop of `fetch_cmd` (client.py lines 979-1004),
consuming the wire script one read at a time.  `deser` is the
configured `self._deserializer` hook.  An exhausted script or a
`NetEvent.fail` models a transport failure surfacing from the stream.
Returns the reads performed and either the accumulated result dict
or the exception raised inside the loop. -/
def fetch_loop (name : String) (expect_cas : Bool)
    (deser : Option (String → String → Int → String)) :
    List NetEvent → List (String × FetchVal) →
    List IOAction × Except MCError (List (String × FetchVal))
  | [], _ => ([.readLine], .error (.ioError "Stream is closed"))
  | .fail msg :: _, _ => ([.readLine], .error (.ioError msg))
  | .ok data :: rest, acc =>
    -- line = line[:-2]
    let line := strDropRight data 2
    match raise_errors line name with
    | .error e => ([.readLine], .error e)
    | .ok _ =>
      if line = "END" then
        ([.readLine], .ok acc)
      else if pyStartsWith line "VALUE" then
        -- unpack `line.split()` into 4 or 5 fields; a mismatch is a
        -- Python ValueError
        let fields? : Option (String × String × String × Option String) :=
          if expect_cas then
            match pySplit line with
            | [_, key, flags, size, cas] => some (key, flags, size, some cas)
            | _ => none
          else
            match pySplit line with
            | [_, key, flags, size] => some (key, flags, size, none)
            | _ => none
        match fields? with
        | none => ([.readLine], .error (.valueError "unpack"))
        | some (key, flags, size, cas?) =>
          match pyInt? size with
          | none => ([.readLine], .error (.valueError size))
          | some sz =>
            let n := (sz + 2).toNat
            -- value = read_bytes(int(size) + 2)
            match rest with
            | [] =>
              ([.readLine, .readBytes n], .error (.ioError "Stream is closed"))
            | .fail msg :: _ =>
              ([.readLine, .readBytes n], .error (.ioError msg))
            | .ok payload :: rest2 =>
              let value := strDropRight payload 2
              -- if self._deserializer: value = deserializer(key, value, int(flags))
              let dres : Except MCError String :=
                match deser with
                | none => .ok value
                | some d =>
                  match pyInt? flags with
                  | none => .error (.valueError flags)
                  | some f => .ok (d key value f)
              match dres with
              | .error e => ([.readLine, .readBytes n], .error e)
              | .ok value =>
                let acc :=
                  match cas? with
                  | some cas => dictSet acc key (.withCas value cas)
                  | none => dictSet acc key (.plain value)
                let (tr, res) := fetch_loop name expect_cas deser rest2 acc
                (.readLine :: .readBytes n :: tr, res)
      else if name = "stats" ∧ pyStartsWith line "STAT" then
        match pySplit line with
        | [_, key, value] =>
          let (tr, res) :=
            fetch_loop name expect_cas deser rest (dictSet acc key (.plain value))
          (.readLine :: tr, res)
        | _ => ([.readLine], .error (.valueError "unpack"))
      else
        ([.readLine], .error (.unknownError (strTake line 32)))

/-- The shared `except Exception` epilogue of the second `try` block of
`fetch_cmd` / `store_cmd` / `misc_cmd`: a transport failure
(IOError/OSError) marks the connection dead first; then, if
`ignore_exc` is configured, the call completes with the degraded
value `deg` instead of propagating. -/
def exceptEpilogue (st : ConnState) (now : Nat) (tr : List IOAction)
    (e : MCError) (deg : α) : CmdRun α :=
  let st := if e.isTransport then mark_dead st now else st
  if st.ignore_exc then
    ⟨tr, st, .completed deg⟩
  else
    ⟨tr, st, .raised e⟩

/-- `Connection.fetch_cmd(name, keys, expect_cas, callback)` as one
synchronous run against the wire script.  Key validation happens in
its own `try` block before any I/O and its exceptions are not subject
to `ignore_exc`.  The command line is then written and the response
loop runs; `self.closed and (yield Task(self.connect))` always enters
`connect` (the code references the *bound method* `self.closed`,
which is always truthy), and `connect` itself is the no-op when
already connected. -/
def fetch_cmd (st : ConnState) (now : Nat)
    (deser : Option (String → String → Int → String))
    (name : String) (keys : List String) (expect_cas : Bool)
    (script : List NetEvent) : CmdRun (List (String × FetchVal)) :=
  match validate_keys keys with
  | .error e => ⟨[], st, .raised e⟩
  | .ok key_strs =>
    match connect st now with
    | .error e => exceptEpilogue st now [] e []
    | .ok (st1, ctr) =>
      let cmd := name ++ " " ++ joinSep " " key_strs ++ "\r\n"
      let lr := fetch_loop name expect_cas deser script []
      let tr := ctr ++ [.write cmd] ++ lr.1
      match lr.2 with
      | .error e => exceptEpilogue st1 now tr e []
      | .ok result => ⟨tr, st1, .completed result⟩

/-! ## Connection.store_cmd (client.py lines 1017-1088) -/

/-- `data, flags = self._serializer(key, data)` when a serializer is
configured, else `(data, 0)` (client.py lines 1031-1033). -/
def serApply (ser : Option (String → String → String × Nat))
    (key data : String) : String × Nat :=
  match ser with
  | none => (data, 0)
  | some s => s key data

/-- The validation/serialization phase of `store_cmd` (first `try`
block, client.py lines 1020-1036): `str(key)`, space check, optional
serializer `(key, data) -> (data, flags)`, then `str(data)`; a
`UnicodeEncodeError` anywhere becomes `MemcacheIllegalInputError`.
Returns the wire-ready `(key, data, flags)`. -/
def store_validate (ser : Option (String → String → String × Nat))
    (key data : String) : Except MCError (String × String × Nat) := do
  let key ← pyStr key
  if strContains key ' ' then
    .error (.illegalInputError "Key contains spaces: %s")
  else do
    let data2 ← pyStr (serApply ser key data).1
    .ok (key, data2, (serApply ser key data).2)

/-- The `extra` suffix of the store command line
(client.py lines 1039-1046). -/
def store_extra (cas : Option String) (noreply : Bool) : String :=
  match cas, noreply with
  | some c, true  => " " ++ c ++ " noreply"
  | some c, false => " " ++ c
  | none,   true  => " noreply"
  | none,   false => ""

/-- The full store request (client.py lines 1048-1049):
`"<name> <key> <flags> <expire> <len(data)><extra>\r\n<data>\r\n"`. -/
def store_line (name key : String) (flags expire : Nat) (data : String)
    (extra : String) : String :=
  name ++ " " ++ key ++ " " ++ toString flags ++ " " ++ toString expire
    ++ " " ++ toString data.length ++ extra ++ "\r\n" ++ data ++ "\r\n"

/-- The reply-reading tail of `store_cmd` (client.py lines 1064-1080):
one `read_until("\r\n")`, strip CRLF, `_raise_errors`, then the
acceptance-table dispatch (`store_handle_reply`). -/
def store_read_reply (name : String) (script : List NetEvent) :
    List IOAction × Except MCError (Option (Option Bool)) :=
  match script with
  | [] => ([.readLine], .error (.ioError "Stream is closed"))
  | .fail msg :: _ => ([.readLine], .error (.ioError msg))
  | .ok data :: _ =>
    ([.readLine], store_handle_reply name (strDropRight data 2))

/-- `Connection.store_cmd(name, key, expire, noreply, data, cas,
callback)` as one synchronous run.  The outcome value is the callback
argument: `some (some true)` for `True`, `some (some false)` for
`False`, `some none` for `None`; outer `none` records the dead
fall-through branch in which no callback fires.  The `except` block
(lines 1081-1088) marks the connection dead on a transport failure
and, under `ignore_exc`, degrades to `callback(None)`. -/
def store_cmd (st : ConnState) (now : Nat)
    (ser : Option (String → String → String × Nat))
    (name key : String) (expire : Nat) (noreply : Bool) (data : String)
    (cas : Option String) (script : List NetEvent) :
    CmdRun (Option (Option Bool)) :=
  match store_validate ser key data with
  | .error e => ⟨[], st, .raised e⟩
  | .ok (key, data, flags) =>
    let cmd := store_line name key flags expire data (store_extra cas noreply)
    match connect st now with
    | .error e => exceptEpilogue st now [] e (some none)
    | .ok (st1, ctr) =>
      if noreply then
        ⟨ctr ++ [.write cmd], st1, .completed (some (some true))⟩
      else
        let rr := store_read_reply name script
        let tr := ctr ++ [.write cmd] ++ rr.1
        match rr.2 with
        | .error e => exceptEpilogue st1 now tr e (some none)
        | .ok r => ⟨tr, st1, .completed r⟩

/-! ## Connection.misc_cmd (client.py lines 1090-1121) -/

/-- The callback argument of `misc_cmd`: `True` when `noreply`, the raw
reply line (CRLF still attached — the code never strips it here)
otherwise, `None` when an error was swallowed. -/
inductive MiscResult where
  | noreplyTrue
  | reply (line : String)
  | degraded
deriving Repr, DecidableEq

/-- `Connection.misc_cmd(cmd, cmd_name, noreply, callback)` as one
synchronous run.  `cmd` already carries its CRLF.  Note that
`_raise_errors` is applied to the *unstripped* line and the callback
receives the unstripped line as well. -/
def misc_cmd (st : ConnState) (now : Nat) (cmd cmd_name : String)
    (noreply : Bool) (script : List NetEvent) : CmdRun MiscResult :=
  match connect st now with
  | .error e => exceptEpilogue st now [] e .degraded
  | .ok (st1, ctr) =>
    if noreply then
      ⟨ctr ++ [.write cmd], st1, .completed .noreplyTrue⟩
    else
      match script with
      | [] =>
        exceptEpilogue st1 now (ctr ++ [.write cmd, .readLine])
          (.ioError "Stream is closed") .degraded
      | .fail msg :: _ =>
        exceptEpilogue st1 now (ctr ++ [.write cmd, .readLine])
          (.ioError msg) .degraded
      | .ok line :: _ =>
        match raise_errors line cmd_name with
        | .error e =>
          exceptEpilogue st1 now (ctr ++ [.write cmd, .readLine]) e .degraded
        | .ok _ =>
          ⟨ctr ++ [.write cmd, .readLine], st1, .completed (.reply line)⟩

/-! ## ClientPool (client.py lines 105-210) -/

/-- The pool's mutable state: `clients` is the free deque (front at the
head), `used` the busy deque, `size` the configured bound (0 =
unbounded).  Clients are identified by the order of their creation;
`next_id` numbers the next one. -/
structure PoolState where
  size : Nat
  clients : List Nat
  used : List Nat
  next_id : Nat
deriving Repr, DecidableEq

/-- `len(free) + len(busy)`. -/
def PoolState.total (p : PoolState) : Nat :=
  p.clients.length + p.used.length

/-- The borrow half of `ClientPool._invoke` (client.py lines 189-198):
if the free deque is empty, either construct one new Client (when
`size == 0` or `total < size`) or raise `MemcachePoolError`
synchronously; then pop the front free Client and append it to
`used`.  Returns the new state and the borrowed Client. -/
def pool_invoke (p : PoolState) : Except MCError (PoolState × Nat) :=
  match p.clients with
  | [] =>
    if p.size > 0 ∧ p.clients.length + p.used.length ≥ p.size then
      .error (.poolError ("Max of " ++ toString p.size
        ++ " clients is already reached"))
    else
      -- self._clients.append(*self._create_clients(1)); popleft; used.append
      let c := p.next_id
      .ok ({ p with next_id := p.next_id + 1, clients := [],
                    used := p.used ++ [c] }, c)
  | c :: rest =>
    .ok ({ p with clients := rest, used := p.used ++ [c] }, c)

/-- One observable event of `ClientPool._invoke.on_finish`, carrying a
snapshot of the pool state at the moment the event happens. -/
inductive PoolEvent (ρ : Type) where
  | returnedToFree (c : Nat) (snapshot : PoolState)
  | callbackInvoked (response : ρ) (snapshot : PoolState)
deriving Repr, DecidableEq

/-- `on_finish(response, c, _cb)` (client.py lines 185-188):
`used.remove(c)` (Python raises ValueError when absent), append `c`
to the free deque, then invoke the caller's original callback.  The
returned event list records that the Client is returned strictly
before the callback runs. -/
def pool_on_finish (p : PoolState) (c : Nat) (response : ρ) :
    Except MCError (PoolState × List (PoolEvent ρ)) :=
  if c ∈ p.used then
    let p1 : PoolState :=
      { p with used := p.used.erase c, clients := p.clients ++ [c] }
    .ok (p1, [.returnedToFree c p1, .callbackInvoked response p1])
  else
    .error (.valueError "deque.remove(x): x not in deque")

/-- A pool-level step for the lifetime invariant: a borrow, or a
completion of the borrowed client `c`.  A step that raises leaves the
state unchanged. -/
inductive PoolOp where
  | invoke
  | finish (c : Nat)
deriving Repr, DecidableEq

/-- Run one pool operation, keeping the state on a raised error. -/
def pool_step (p : PoolState) : PoolOp → PoolState
  | .invoke =>
    match pool_invoke p with
    | .error _ => p
    | .ok (p', _) => p'
  | .finish c =>
    match pool_on_finish p c () with
    | .error _ => p
    | .ok (p', _) => p'

/-- Run a sequence of pool operations from a state. -/
def pool_run (p : PoolState) (ops : List PoolOp) : PoolState :=
  ops.foldl pool_step p

/-! ## Client.set_many (client.py lines 301-340) -/

/-- The set commands `Client.set_many(values)` actually issues, as
`(key, value)` pairs handed to `self.set`.  Faithful to the two loops
of the source: the first loop builds the `servers` dict keyed by key
and leaves the loop variable `value` bound to the *last* value it
iterated; the second loop calls `self.set(key, value, ...)` with that
leaked `value` for every key.  Dict iteration order is modelled as
insertion order; `values` is the dict as an association list in
iteration order.  (`server` is never `None` on a non-empty bucket
table, so the `server is None` guard of the second loop is not
exercised here.) -/
def set_many_sets (values : List (String × String)) :
    List (String × String) :=
  let folded :=
    values.foldl
      (fun (acc : List (String × Unit) × Option String) kv =>
        (dictSet acc.1 kv.1 (), some kv.2))
      ([], none)
  let servers := folded.1
  match folded.2 with
  | none => []  -- empty input: second loop body never runs
  | some leaked => servers.map (fun p => (p.1, leaked))

/-- What the spec intends `set_many(values)` to issue: each key paired
with its own value.  Modelled from the spec: "exactly one set command
is issued per key, each key is stored with the value associated to
that key in the input dict". -/
def set_many_sets_spec (values : List (String × String)) :
    List (String × String) :=
  values

/-! ## Constructor defaults (client.py lines 220-240 and 812-814) -/

/-- The keyword defaults of `Client.__init__`
(client.py lines 220-224). -/
structure ClientArgs where
  connect_timeout : Nat := 5
  timeout : Nat := 1
  no_delay : Bool := true
  ignore_exc : Bool := true
  dead_retry : Nat := 30
deriving Repr, DecidableEq

/-- The keyword defaults of `Connection.__init__`
(client.py lines 812-814).  Note `ignore_exc` defaults to `false`
here, unlike `Client`. -/
structure ConnectionArgs where
  connect_timeout : Nat := 5
  timeout : Nat := 1
  no_delay : Bool := true
  ignore_exc : Bool := false
  dead_retry : Nat := 30
deriving Repr, DecidableEq

/-- `self._server_args` (client.py lines 231-240): the arguments a
`Client` passes to every `Connection` it creates. -/
def client_server_args (a : ClientArgs) : ConnectionArgs :=
  { connect_timeout := a.connect_timeout, timeout := a.timeout,
    no_delay := a.no_delay, ignore_exc := a.ignore_exc,
    dead_retry := a.dead_retry }

/-- The initial connection state set up by `Connection.__init__`
(client.py lines 827-845): no stream, `dead_until = 0`. -/
def initConnState (a : ConnectionArgs) : ConnState :=
  { ignore_exc := a.ignore_exc, dead_until := 0,
    dead_retry := a.dead_retry, connected := false }

/-! ## Theorems -/

/-- The bucket/server fold, with both accumulators generalized. -/
lemma client_init_foldl (servers : List ServerSpec) (b s : List ConnCfg) :
    (servers.foldl
      (fun acc spec =>
        let server := mkConnection spec
        (acc.1 ++ List.replicate server.weight server, acc.2 ++ [server]))
      (b, s)).1
    = b ++ (servers.map mkConnection).flatMap
        (fun c => List.replicate c.weight c) := by
  induction servers generalizing b s with
  | nil => simp
  | cons spec rest ih =>
    simp only [List.foldl_cons, List.map_cons, List.flatMap_cons]
    rw [ih]
    simp [List.append_assoc]

/-- `mkConnection` preserves the declared weight. -/
lemma mkConnection_weight (s : ServerSpec) :
    (mkConnection s).weight = s.weight := by
  cases s <;> simp [mkConnection, ServerSpec.weight, parseHostPort]

/-- C2: for every server list with weights w1..wn, the bucket table
built at Client construction is the in-order concatenation of each
server's Connection repeated exactly `weight` consecutive times, and
its length is the sum of the weights.  (`client_buckets` is a pure
function of the server list, so `bucket[i]` is stable for the
Client's lifetime.) -/
theorem client_buckets_weighted (servers : List ServerSpec) :
    client_buckets servers
      = (servers.map mkConnection).flatMap
          (fun c => List.replicate c.weight c)
    ∧ (client_buckets servers).length
      = (servers.map ServerSpec.weight).sum := by
  have hstruct : client_buckets servers
      = (servers.map mkConnection).flatMap
          (fun c => List.replicate c.weight c) := by
    unfold client_buckets client_init
    exact client_init_foldl servers [] []
  refine ⟨hstruct, ?_⟩
  rw [hstruct]
  clear hstruct
  induction servers with
  | nil => simp
  | cons spec rest ih =>
    simp only [List.map_cons, List.flatMap_cons, List.length_append,
      List.length_replicate, List.sum_cons, mkConnection_weight, ih]

/-- C3: key routing is a deterministic pure function of the bucket
table, the string hash and the key: an explicit `(hash, realKey)`
tuple routes with the given hash verbatim; a plain key is hashed when
there is more than one bucket and otherwise uses hash 0, which (on a
single-bucket table) always selects bucket 0; the chosen server is
`buckets[hash mod len(buckets)]` in every case. -/
theorem get_server_routing (buckets : List ConnCfg) (hashFn : String → Int)
    (hne : buckets ≠ []) :
    (∀ h k, get_server buckets hashFn (.tagged h k)
        = (buckets.get? (h % (buckets.length : Int)).toNat).map
            (fun c => (c, k)))
    ∧ (buckets.length > 1 → ∀ k,
        get_server buckets hashFn (.plain k)
          = get_server buckets hashFn (.tagged (hashFn k) k))
    ∧ (buckets.length ≤ 1 → ∀ k,
        get_server buckets hashFn (.plain k)
          = (buckets.get? 0).map (fun c => (c, k)))
    ∧ (∀ key, ∃ c k, get_server buckets hashFn key = some (c, k)) := by
  have hpos : 0 < buckets.length := List.length_pos.mpr hne
  have hmod : ∀ h : Int,
      (h % (buckets.length : Int)).toNat < buckets.length := by
    intro h
    have hzpos : (0 : Int) < (buckets.length : Int) := by exact_mod_cast hpos
    have h1 : 0 ≤ h % (buckets.length : Int) :=
      Int.emod_nonneg h (ne_of_gt hzpos)
    have h2 : h % (buckets.length : Int) < (buckets.length : Int) :=
      Int.emod_lt_of_pos h hzpos
    omega
  refine ⟨fun h k => rfl, ?_, ?_, ?_⟩
  · intro hgt k
    simp [get_server, hgt]
  · intro hle k
    have hngt : ¬ buckets.length > 1 := by omega
    simp [get_server, hngt, Int.zero_emod]
  · intro key
    cases key with
    | plain k =>
      have hidx := hmod (if buckets.length > 1 then hashFn k else 0)
      refine ⟨buckets.get ⟨_, hidx⟩, k, ?_⟩
      simp [get_server, List.get?_eq_get hidx]
    | tagged h k =>
      refine ⟨buckets.get ⟨_, hmod h⟩, k, ?_⟩
      simp [get_server, List.get?_eq_get (hmod h)]

/-- C1: for a store command issued with noreply=false, once the reply
line has passed wire-error translation (`_raise_errors` raised
nothing), the caller-visible result is given by the fixed per-command
acceptance table: `set` accepts only STORED; `add`/`replace`/
`append`/`prepend` accept STORED or NOT_STORED; `cas` accepts STORED,
EXISTS or NOT_FOUND; STORED ↦ True, NOT_STORED ↦ False, EXISTS ↦
False, NOT_FOUND ↦ None; any other reply raises
`MemcacheUnknownError` on the first 32 characters of the line. -/
theorem store_reply_acceptance (name line : String)
    (hcmd : name = "set" ∨ name = "add" ∨ name = "replace"
      ∨ name = "append" ∨ name = "prepend" ∨ name = "cas")
    (hwire : raise_errors line name = .ok ()) :
    store_handle_reply name line =
      if line = "STORED" then
        .ok (some (some true))
      else if (name = "add" ∨ name = "replace" ∨ name = "append"
          ∨ name = "prepend") ∧ line = "NOT_STORED" then
        .ok (some (some false))
      else if name = "cas" ∧ line = "EXISTS" then
        .ok (some (some false))
      else if name = "cas" ∧ line = "NOT_FOUND" then
        .ok (some none)
      else
        .error (.unknownError (strTake line 32)) := by
  have hbind : store_handle_reply name line =
      match VALID_STORE_RESULTS name with
      | none => .error (.keyError name)
      | some table =>
        if line ∈ table then
          if line = "STORED" then .ok (some (some true))
          else if line = "NOT_STORED" then .ok (some (some false))
          else if line = "NOT_FOUND" then .ok (some none)
          else if line = "EXISTS" then .ok (some (some false))
          else .ok none
        else
          .error (.unknownError (strTake line 32)) := by
    unfold store_handle_reply
    rw [hwire]
    rfl
  rcases hcmd with h | h | h | h | h | h <;> subst h <;>
    rw [hbind] <;>
    simp only [VALID_STORE_RESULTS, List.mem_cons,
      List.mem_singleton, List.not_mem_nil, or_false] <;>
    split_ifs <;> simp_all

/-- Witness for C1: a concrete NOT_FOUND reply to a cas maps to None. -/
theorem store_reply_acceptance_witness :
    store_handle_reply "cas" "NOT_FOUND" = .ok (some none) := by
  have h := store_reply_acceptance "cas" "NOT_FOUND"
    (by simp) (by rfl)
  simpa using h

/-- A fresh connection that propagates errors (`ignore_exc = False`). -/
def st0 : ConnState := ⟨false, 0, 30, false⟩

/-- An established connection with `ignore_exc = True`. -/
def stIgn : ConnState := ⟨true, 0, 30, true⟩

/-- `Except.ok` bound into a continuation. -/
lemma except_ok_bind (x : α) (f : α → Except ε β) :
    (Except.ok x : Except ε α) >>= f = f x := rfl

/-- `Except.error` bound into a continuation. -/
lemma except_error_bind (e : ε) (f : α → Except ε β) :
    (Except.error e : Except ε α) >>= f = Except.error e := rfl

/-- A key list holding a key with a space or a non-ASCII key makes
`validate_keys` fail with `MemcacheIllegalInputError`. -/
lemma validate_keys_error_of_bad (keys : List String)
    (h : ∃ k ∈ keys, strContains k ' ' = true
        ∨ strAll k (fun c => c.toNat < 128) = false) :
    ∃ m, validate_keys keys = .error (.illegalInputError m) := by
  induction keys with
  | nil => simp at h
  | cons k rest ih =>
    by_cases hascii : strAll k (fun c => c.toNat < 128)
    · by_cases hsp : strContains k ' '
      · refine ⟨"Key contains spaces: " ++ k, ?_⟩
        simp [validate_keys, pyStr, hascii, hsp, except_ok_bind]
      · have hrest : ∃ k' ∈ rest, strContains k' ' ' = true
            ∨ strAll k' (fun c => c.toNat < 128) = false := by
          obtain ⟨k', hmem, hbad⟩ := h
          rcases List.mem_cons.mp hmem with rfl | hmem'
          · rcases hbad with hb | hb
            · exact absurd hb (by simp [hsp])
            · exact absurd hb (by simp [hascii])
          · exact ⟨k', hmem', hbad⟩
        obtain ⟨m, hm⟩ := ih hrest
        refine ⟨m, ?_⟩
        simp [validate_keys, pyStr, hascii, hsp, hm, except_ok_bind,
          except_error_bind]
    · refine ⟨"UnicodeEncodeError", ?_⟩
      simp [validate_keys, pyStr, hascii, except_error_bind]

/-- A key with a space, a non-ASCII key, or (without a serializer) a
non-ASCII value makes `store_validate` fail with
`MemcacheIllegalInputError`. -/
lemma store_validate_error_of_bad (key data : String)
    (h : strContains key ' ' = true
        ∨ strAll key (fun c => c.toNat < 128) = false
        ∨ strAll data (fun c => c.toNat < 128) = false) :
    ∃ m, store_validate none key data = .error (.illegalInputError m) := by
  by_cases hascii : strAll key (fun c => c.toNat < 128)
  · by_cases hsp : strContains key ' '
    · exact ⟨"Key contains spaces: %s",
        by simp [store_validate, pyStr, hascii, hsp, except_ok_bind]⟩
    · have hdata : strAll data (fun c => c.toNat < 128) = false := by
        rcases h with hb | hb | hb
        · exact absurd hb (by simp [hsp])
        · exact absurd hb (by simp [hascii])
        · exact hb
      exact ⟨"UnicodeEncodeError",
        by simp [store_validate, serApply, pyStr, hascii, hsp, hdata,
          except_ok_bind, except_error_bind]⟩
  · exact ⟨"UnicodeEncodeError",
      by simp [store_validate, serApply, pyStr, hascii, except_error_bind]⟩

/-- Witness for C3: on a concrete two-server table a plain key routes
to a server. -/
theorem get_server_routing_witness :
    ∃ c k, get_server [⟨"h1", 11211, 1⟩, ⟨"h2", 11211, 3⟩]
        (fun _ => 7) (.plain "key") = some (c, k) :=
  (get_server_routing [⟨"h1", 11211, 1⟩, ⟨"h2", 11211, 3⟩]
    (fun _ => 7) (by decide)).2.2.2 (.plain "key")

/-- Counterexample to C4 as stated: the key `"a\tb"` contains
whitespace (a TAB), yet the fetch is not rejected — the run opens the
connection, writes the command line onto the wire and completes
normally.  The code only checks for the space character. -/
theorem fetch_tab_key_reaches_wire :
    fetch_cmd st0 0 none "get" ["a\tb"] false [.ok "END\r\n"]
      = ⟨[.tcpConnect, .write "get a\tb\r\n", .readLine],
         ⟨false, 0, 30, true⟩, .completed []⟩ := by
  decide

/-- C4 (amended): for every fetch command and every store command, if
any key contains a space character (U+0020) or a key or value is not
representable in the wire charset, the call fails with an
IllegalInputError before any I/O — the action trace is empty and the
connection state is untouched. -/
theorem illegal_input_fails_before_io :
    (∀ st now deser name keys ec script,
       (∃ k ∈ keys, strContains k ' ' = true
          ∨ strAll k (fun c => c.toNat < 128) = false) →
       ∃ m, fetch_cmd st now deser name keys ec script
          = ⟨[], st, .raised (.illegalInputError m)⟩)
  ∧ (∀ st now name key expire nr data cas script,
       (strContains key ' ' = true
          ∨ strAll key (fun c => c.toNat < 128) = false
          ∨ strAll data (fun c => c.toNat < 128) = false) →
       ∃ m, store_cmd st now none name key expire nr data cas script
          = ⟨[], st, .raised (.illegalInputError m)⟩) := by
  constructor
  · intro st now deser name keys ec script hbad
    obtain ⟨m, hm⟩ := validate_keys_error_of_bad keys hbad
    exact ⟨m, by simp [fetch_cmd, hm]⟩
  · intro st now name key expire nr data cas script hbad
    obtain ⟨m, hm⟩ := store_validate_error_of_bad key data hbad
    exact ⟨m, by simp [store_cmd, hm]⟩

/-- Witness for the amended C4: a concrete spaced key fails before any
I/O on both the fetch path and the store path. -/
theorem illegal_input_fails_before_io_witness :
    (∃ m, fetch_cmd st0 0 none "get" ["bad key"] false []
        = ⟨[], st0, .raised (.illegalInputError m)⟩)
    ∧ (∃ m, store_cmd st0 0 none "set" "bad key" 0 false "v" none []
        = ⟨[], st0, .raised (.illegalInputError m)⟩) :=
  ⟨illegal_input_fails_before_io.1 st0 0 none "get" ["bad key"] false []
      ⟨"bad key", by decide, Or.inl (by decide)⟩,
   illegal_input_fails_before_io.2 st0 0 "set" "bad key" 0 false "v" none []
      (Or.inl (by decide))⟩

/-- `mark_dead` does not change the `ignore_exc` setting. -/
lemma mark_dead_ignore (st : ConnState) (now : Nat) :
    (mark_dead st now).ignore_exc = st.ignore_exc := by
  unfold mark_dead
  split <;> rfl

/-- A successful `connect` does not change the `ignore_exc` setting. -/
lemma connect_ok_ignore (st : ConnState) (now : Nat) (st' : ConnState)
    (tr : List IOAction) (h : connect st now = .ok (st', tr)) :
    st'.ignore_exc = st.ignore_exc := by
  unfold connect at h
  split at h
  · exact absurd h (by simp)
  · split at h <;>
    · injection h with h1
      injection h1 with h2 h3
      subst h2
      rfl

/-- With `ignore_exc` set, the shared `except` epilogue always
completes with the degraded value, never re-raising. -/
lemma exceptEpilogue_ignore (st : ConnState) (now : Nat)
    (tr : List IOAction) (e : MCError) (deg : α)
    (hig : st.ignore_exc = true) :
    ∃ st', exceptEpilogue st now tr e deg = ⟨tr, st', .completed deg⟩ := by
  unfold exceptEpilogue
  by_cases ht : e.isTransport = true
  · exact ⟨mark_dead st now, by simp [ht, mark_dead_ignore, hig]⟩
  · exact ⟨st, by simp [ht, hig]⟩

/-- Outcome form of `exceptEpilogue_ignore`, for rewriting. -/
lemma exceptEpilogue_ignore_outcome (st : ConnState) (now : Nat)
    (tr : List IOAction) (e : MCError) (deg : α)
    (hig : st.ignore_exc = true) :
    (exceptEpilogue st now tr e deg).outcome = .completed deg := by
  obtain ⟨st', hst'⟩ := exceptEpilogue_ignore st now tr e deg hig
  rw [hst']

/-- `pyStr` fails only with `MemcacheIllegalInputError`. -/
lemma pyStr_error_illegal (s : String) (e : MCError)
    (h : pyStr s = .error e) : e.isIllegalInput = true := by
  unfold pyStr at h
  split at h
  · exact absurd h (by simp)
  · injection h with h1
    subst h1
    rfl

/-- `validate_keys` fails only with `MemcacheIllegalInputError`. -/
lemma validate_keys_error_illegal (keys : List String) (e : MCError)
    (h : validate_keys keys = .error e) : e.isIllegalInput = true := by
  induction keys with
  | nil => simp [validate_keys] at h
  | cons k rest ih =>
    unfold validate_keys at h
    cases hp : pyStr k with
    | error e' =>
      rw [hp, except_error_bind] at h
      injection h with h1
      subst h1
      exact pyStr_error_illegal k e' hp
    | ok ks =>
      rw [hp, except_ok_bind] at h
      split at h
      · injection h with h1
        subst h1
        rfl
      · cases hr : validate_keys rest with
        | error e'' =>
          rw [hr, except_error_bind] at h
          injection h with h1
          subst h1
          exact ih hr
        | ok tail =>
          rw [hr, except_ok_bind] at h
          exact absurd h (by simp)

/-- `store_validate` fails only with `MemcacheIllegalInputError`. -/
lemma store_validate_error_illegal
    (ser : Option (String → String → String × Nat)) (key data : String)
    (e : MCError) (h : store_validate ser key data = .error e) :
    e.isIllegalInput = true := by
  unfold store_validate at h
  cases hp : pyStr key with
  | error e' =>
    rw [hp, except_error_bind] at h
    injection h with h1
    subst h1
    exact pyStr_error_illegal key e' hp
  | ok ks =>
    rw [hp, except_ok_bind] at h
    split at h
    · injection h with h1
      subst h1
      rfl
    · cases hd : pyStr (serApply ser ks data).1 with
      | error e'' =>
        rw [hd, except_error_bind] at h
        injection h with h1
        subst h1
        exact pyStr_error_illegal _ e'' hd
      | ok d =>
        rw [hd, except_ok_bind] at h
        exact absurd h (by simp)

/-- Counterexample to C5 as stated: with `ignoreErrors` enabled, a
protocol-level failure — the server answering `ERROR` to a fetch —
does NOT propagate to the caller: the call is swallowed into the
degraded empty map, exactly like a transport failure. -/
theorem ignored_protocol_error_swallowed :
    fetch_cmd stIgn 0 none "get" ["k"] false [.ok "ERROR\r\n"]
      = ⟨[.write "get k\r\n", .readLine], stIgn, .completed []⟩ := by
  decide

/-- C5 (amended): when `ignoreErrors` is enabled, every failure raised
during the I/O phase — transport-level failures and protocol-level
errors (server-reported ERROR / CLIENT_ERROR / SERVER_ERROR
rejections and unknown-reply errors) alike — is swallowed into a
degraded result (empty map / None); the only errors that still
propagate are the pre-I/O illegal-input validation errors of fetch
and store, which leave an empty I/O trace.  A misc command never
raises at all. -/
theorem ignore_exc_swallows_all (st : ConnState)
    (hig : st.ignore_exc = true) :
    (∀ now deser name keys ec script e,
       (fetch_cmd st now deser name keys ec script).outcome = .raised e →
       e.isIllegalInput = true
         ∧ (fetch_cmd st now deser name keys ec script).trace = [])
  ∧ (∀ now ser name key expire nr data cas script e,
       (store_cmd st now ser name key expire nr data cas script).outcome
           = .raised e →
       e.isIllegalInput = true
         ∧ (store_cmd st now ser name key expire nr data cas script).trace
             = [])
  ∧ (∀ now cmd cmd_name nr script e,
       (misc_cmd st now cmd cmd_name nr script).outcome ≠ .raised e) := by
  refine ⟨?_, ?_, ?_⟩
  · intro now deser name keys ec script e hraised
    cases hv : validate_keys keys with
    | error e0 =>
      have hrun : fetch_cmd st now deser name keys ec script
          = ⟨[], st, .raised e0⟩ := by
        unfold fetch_cmd
        rw [hv]
      rw [hrun] at hraised
      dsimp only at hraised
      injection hraised with he
      subst he
      exact ⟨validate_keys_error_illegal keys e0 hv, by rw [hrun]⟩
    | ok ks =>
      exfalso
      unfold fetch_cmd at hraised
      rw [hv] at hraised
      cases hc : connect st now with
      | error e0 =>
        rw [hc] at hraised
        dsimp only at hraised
        rw [exceptEpilogue_ignore_outcome _ _ _ _ _ hig] at hraised
        simp at hraised
      | ok pr =>
        obtain ⟨st1, ctr⟩ := pr
        have hig1 : st1.ignore_exc = true :=
          (connect_ok_ignore st now st1 ctr hc).trans hig
        rw [hc] at hraised
        dsimp only at hraised
        cases hres : (fetch_loop name ec deser script []).2 with
        | error e0 =>
          rw [hres] at hraised
          dsimp only at hraised
          rw [exceptEpilogue_ignore_outcome _ _ _ _ _ hig1] at hraised
          simp at hraised
        | ok r =>
          rw [hres] at hraised
          simp at hraised
  · intro now ser name key expire nr data cas script e hraised
    cases hv : store_validate ser key data with
    | error e0 =>
      have hrun : store_cmd st now ser name key expire nr data cas script
          = ⟨[], st, .raised e0⟩ := by
        unfold store_cmd
        rw [hv]
      rw [hrun] at hraised
      dsimp only at hraised
      injection hraised with he
      subst he
      exact ⟨store_validate_error_illegal ser key data e0 hv, by rw [hrun]⟩
    | ok v =>
      exfalso
      obtain ⟨key1, data1, flags1⟩ := v
      unfold store_cmd at hraised
      rw [hv] at hraised
      cases hc : connect st now with
      | error e0 =>
        rw [hc] at hraised
        dsimp only at hraised
        rw [exceptEpilogue_ignore_outcome _ _ _ _ _ hig] at hraised
        simp at hraised
      | ok pr =>
        obtain ⟨st1, ctr⟩ := pr
        have hig1 : st1.ignore_exc = true :=
          (connect_ok_ignore st now st1 ctr hc).trans hig
        rw [hc] at hraised
        cases nr with
        | true =>
          dsimp only at hraised
          simp at hraised
        | false =>
          dsimp only at hraised
          rw [if_neg (by decide)] at hraised
          cases hres : (store_read_reply name script).2 with
          | error e0 =>
            rw [hres] at hraised
            dsimp only at hraised
            rw [exceptEpilogue_ignore_outcome _ _ _ _ _ hig1] at hraised
            simp at hraised
          | ok r =>
            rw [hres] at hraised
            simp at hraised
  · intro now cmd cmd_name nr script e hraised
    unfold misc_cmd at hraised
    cases hc : connect st now with
    | error e0 =>
      rw [hc] at hraised
      dsimp only at hraised
      rw [exceptEpilogue_ignore_outcome _ _ _ _ _ hig] at hraised
      simp at hraised
    | ok pr =>
      obtain ⟨st1, ctr⟩ := pr
      have hig1 : st1.ignore_exc = true :=
        (connect_ok_ignore st now st1 ctr hc).trans hig
      rw [hc] at hraised
      cases nr with
      | true =>
        dsimp only at hraised
        simp at hraised
      | false =>
        dsimp only at hraised
        rw [if_neg (by decide)] at hraised
        cases script with
        | nil =>
          dsimp only at hraised
          rw [exceptEpilogue_ignore_outcome _ _ _ _ _ hig1] at hraised
          simp at hraised
        | cons ev rest =>
          cases ev with
          | fail msg =>
            dsimp only at hraised
            rw [exceptEpilogue_ignore_outcome _ _ _ _ _ hig1] at hraised
            simp at hraised
          | ok line =>
            dsimp only at hraised
            cases hre : raise_errors line cmd_name with
            | error e0 =>
              rw [hre] at hraised
              dsimp only at hraised
              rw [exceptEpilogue_ignore_outcome _ _ _ _ _ hig1] at hraised
              simp at hraised
            | ok u =>
              rw [hre] at hraised
              simp at hraised

/-- Witness for the amended C5: a transport failure inside a misc
command on an `ignore_exc` connection does not raise. -/
theorem ignore_exc_swallows_all_witness :
    (misc_cmd stIgn 0 "quit\r\n" "quit" false [.fail "boom"]).outcome
      ≠ .raised (.ioError "boom") :=
  (ignore_exc_swallows_all stIgn rfl).2.2 0 "quit\r\n" "quit" false
    [.fail "boom"] (.ioError "boom")

/-- A successful borrow keeps `size` and keeps `total` under the
bound. -/
lemma pool_invoke_ok_bound (p p' : PoolState) (c : Nat) (hsz : 0 < p.size)
    (h : p.total ≤ p.size) (hinv : pool_invoke p = .ok (p', c)) :
    p'.total ≤ p.size ∧ p'.size = p.size := by
  unfold pool_invoke at hinv
  cases hcl : p.clients with
  | nil =>
    rw [hcl] at hinv
    dsimp only at hinv
    by_cases hfull : p.size > 0
        ∧ List.length ([] : List Nat) + p.used.length ≥ p.size
    · rw [if_pos hfull] at hinv
      exact absurd hinv (by simp)
    · rw [if_neg hfull] at hinv
      injection hinv with h1
      injection h1 with h2 h3
      subst h2
      have hlt : p.used.length < p.size := by
        simp only [List.length_nil] at hfull
        omega
      constructor
      · simp only [PoolState.total, List.length_nil, List.length_append,
          List.length_singleton]
        omega
      · rfl
  | cons c0 rest =>
    rw [hcl] at hinv
    dsimp only at hinv
    injection hinv with h1
    injection h1 with h2 h3
    subst h2
    have hlen : p.clients.length = rest.length + 1 := by
      rw [hcl]
      rfl
    simp only [PoolState.total] at h ⊢
    constructor
    · simp only [List.length_append, List.length_singleton]
      omega
    · trivial

/-- A successful release keeps `size` and keeps `total` under the
bound. -/
lemma pool_on_finish_ok_bound (p p' : PoolState) (c : Nat)
    (evs : List (PoolEvent ρ)) (h : p.total ≤ p.size)
    (hfin : pool_on_finish p c r = .ok (p', evs)) :
    p'.total ≤ p.size ∧ p'.size = p.size := by
  unfold pool_on_finish at hfin
  by_cases hmem : c ∈ p.used
  · rw [if_pos hmem] at hfin
    injection hfin with h1
    injection h1 with h2 h3
    subst h2
    simp only [PoolState.total] at h ⊢
    have hpos : 0 < p.used.length := List.length_pos_of_mem hmem
    constructor
    · simp only [List.length_append, List.length_singleton,
        List.length_erase_of_mem hmem]
      omega
    · trivial
  · rw [if_neg hmem] at hfin
    exact absurd hfin (by simp)

/-- One pool step keeps `size` and keeps `total` under the bound. -/
lemma pool_step_bound (p : PoolState) (op : PoolOp) (hsz : 0 < p.size)
    (h : p.total ≤ p.size) :
    (pool_step p op).total ≤ p.size ∧ (pool_step p op).size = p.size := by
  cases op with
  | invoke =>
    cases hinv : pool_invoke p with
    | error e =>
      have hstep : pool_step p .invoke = p := by
        unfold pool_step
        dsimp only
        rw [hinv]
      rw [hstep]
      exact ⟨h, rfl⟩
    | ok pr =>
      obtain ⟨p', c⟩ := pr
      have hstep : pool_step p .invoke = p' := by
        unfold pool_step
        dsimp only
        rw [hinv]
      rw [hstep]
      exact pool_invoke_ok_bound p p' c hsz h hinv
  | finish c =>
    cases hfin : pool_on_finish p c () with
    | error e =>
      have hstep : pool_step p (.finish c) = p := by
        unfold pool_step
        dsimp only
        rw [hfin]
      rw [hstep]
      exact ⟨h, rfl⟩
    | ok pr =>
      obtain ⟨p', evs⟩ := pr
      have hstep : pool_step p (.finish c) = p' := by
        unfold pool_step
        dsimp only
        rw [hfin]
      rw [hstep]
      exact pool_on_finish_ok_bound p p' c evs h hfin

/-- C6: the borrow path of `ClientPool._invoke`: a non-empty free
queue lends its front Client; an empty free queue constructs a new
Client when `maxSize == 0` or `free+busy < maxSize` and otherwise
raises `MemcachePoolError` synchronously from the call itself (the
`Except.error` return — the callback is not part of this value);
consequently, whenever `maxSize > 0` and the pool starts within its
bound, `len(free) + len(busy)` never exceeds `maxSize` across any
sequence of borrows and completions. -/
theorem pool_invoke_spec :
    (∀ p : PoolState, ∀ c rest, p.clients = c :: rest →
       pool_invoke p
         = .ok ({ p with clients := rest, used := p.used ++ [c] }, c))
  ∧ (∀ p : PoolState, p.clients = [] → (p.size = 0 ∨ p.total < p.size) →
       pool_invoke p
         = .ok ({ p with
                      next_id := p.next_id + 1, clients := [],
                      used := p.used ++ [p.next_id] }, p.next_id))
  ∧ (∀ p : PoolState, p.clients = [] → 0 < p.size → p.size ≤ p.total →
       pool_invoke p = .error (.poolError ("Max of " ++ toString p.size
         ++ " clients is already reached")))
  ∧ (∀ p : PoolState, ∀ ops : List PoolOp, 0 < p.size → p.total ≤ p.size →
       (pool_run p ops).total ≤ p.size) := by
  refine ⟨?_, ?_, ?_, ?_⟩
  · intro p c rest hcl
    unfold pool_invoke
    rw [hcl]
  · intro p hcl hroom
    unfold pool_invoke
    rw [hcl]
    dsimp only
    split_ifs with hfull
    · exfalso
      simp only [PoolState.total] at hroom
      rw [hcl] at hroom
      simp only [List.length_nil] at hroom hfull
      omega
    · rfl
  · intro p hcl hsz hfull
    unfold pool_invoke
    rw [hcl]
    dsimp only
    split_ifs with hcond
    · rfl
    · exfalso
      simp only [PoolState.total] at hfull
      rw [hcl] at hfull
      simp only [List.length_nil] at hfull hcond
      omega
  · intro p ops hsz hbound
    induction ops generalizing p with
    | nil => exact hbound
    | cons op rest ih =>
      obtain ⟨h1, h2⟩ := pool_step_bound p op hsz hbound
      have hres := ih (pool_step p op) (by rw [h2]; exact hsz)
        (by rw [h2]; exact h1)
      rw [h2] at hres
      simpa [pool_run, List.foldl_cons] using hres

/-- Witness for C6: a pool of size 1 with its only Client busy rejects
a second borrow synchronously, and a two-borrow run from an empty
size-1 pool stays within the bound. -/
theorem pool_invoke_spec_witness :
    pool_invoke ⟨1, [], [0], 1⟩
      = .error (.poolError "Max of 1 clients is already reached")
    ∧ (pool_run ⟨1, [], [], 0⟩ [.invoke, .invoke]).total ≤ 1 :=
  ⟨pool_invoke_spec.2.2.1 ⟨1, [], [0], 1⟩ rfl (by decide) (by decide),
   pool_invoke_spec.2.2.2 ⟨1, [], [], 0⟩ [.invoke, .invoke]
     (by decide) (by decide)⟩

/-- C7: `on_finish` moves the borrowed Client out of the busy set and
back onto the free queue strictly before the caller's original
callback is invoked: in the emitted event sequence the return event
precedes the callback event, and the pool state the callback observes
already holds the Client in the free queue and no longer in the busy
set. -/
theorem pool_on_finish_releases_first (p : PoolState) (c : Nat)
    (r : ρ) (hmem : c ∈ p.used) (hnd : p.used.Nodup) :
    ∃ p1, pool_on_finish p c r
        = .ok (p1, [.returnedToFree c p1, .callbackInvoked r p1])
      ∧ c ∈ p1.clients ∧ c ∉ p1.used := by
  refine ⟨{ p with used := p.used.erase c, clients := p.clients ++ [c] },
    ?_, ?_, ?_⟩
  · unfold pool_on_finish
    rw [if_pos hmem]
  · exact List.mem_append_right _ (List.mem_singleton.mpr rfl)
  · exact hnd.not_mem_erase

/-- Witness for C7: releasing the only busy Client of a concrete pool
returns it to the free queue before the callback fires. -/
theorem pool_on_finish_releases_first_witness :
    ∃ p1, pool_on_finish ⟨1, [], [7], 8⟩ 7 true
        = .ok (p1, [.returnedToFree 7 p1, .callbackInvoked true p1])
      ∧ 7 ∈ p1.clients ∧ 7 ∉ p1.used :=
  pool_on_finish_releases_first ⟨1, [], [7], 8⟩ 7 true
    (by decide) (by decide)

/-- C8: while `now < deadUntil` the quarantine is in effect: `connect`
raises a `MemcacheClientError` and, observed through a command, no
I/O happens at all (empty trace, state untouched).  Once the window
has elapsed, `connect` resets `deadUntil` to 0 and proceeds — with a
normal TCP handshake when no session is established.  Quarantine is
therefore transient. -/
theorem connect_quarantine (st : ConnState) (now : Nat) :
    (now < st.dead_until →
       connect st now = .error (.clientError (deadMsg st now))
       ∧ (st.ignore_exc = false → ∀ cmd cmd_name nr script,
            misc_cmd st now cmd cmd_name nr script
              = ⟨[], st, .raised (.clientError (deadMsg st now))⟩))
  ∧ (st.dead_until ≤ now →
       (st.connected = false →
          connect st now
            = .ok ({ st with dead_until := 0, connected := true },
                [.tcpConnect]))
       ∧ (st.connected = true →
          connect st now = .ok ({ st with dead_until := 0 }, []))) := by
  constructor
  · intro hq
    have hdead : st.dead_until > now := hq
    have hconn : connect st now = .error (.clientError (deadMsg st now)) := by
      unfold connect
      rw [if_pos hdead]
    refine ⟨hconn, ?_⟩
    intro hig cmd cmd_name nr script
    unfold misc_cmd
    rw [hconn]
    unfold exceptEpilogue
    simp [MCError.isTransport, hig]
  · intro helapsed
    have hdead : ¬ st.dead_until > now := by omega
    constructor
    · intro hnc
      unfold connect
      rw [if_neg hdead, if_neg (by rw [hnc]; simp)]
    · intro hc
      unfold connect
      rw [if_neg hdead, if_pos hc]

/-- Witness for C8: a server marked dead until t=100 fails fast at
t=50 with no I/O, and connects normally at t=100. -/
theorem connect_quarantine_witness :
    misc_cmd ⟨false, 100, 30, false⟩ 50 "quit\r\n" "quit" false []
      = ⟨[], ⟨false, 100, 30, false⟩,
          .raised (.clientError (deadMsg ⟨false, 100, 30, false⟩ 50))⟩
    ∧ connect ⟨false, 100, 30, false⟩ 100
      = .ok (⟨false, 0, 30, true⟩, [.tcpConnect]) :=
  ⟨((connect_quarantine ⟨false, 100, 30, false⟩ 50).1 (by decide)).2
      rfl "quit\r\n" "quit" false [],
   ((connect_quarantine ⟨false, 100, 30, false⟩ 100).2 (by decide)).1 rfl⟩

/-- C9 (code bug): `Client.set_many` reuses the loop variable `value`
of its first loop inside its second loop, so every key is stored with
the *last* value iterated over, not its own.  At the concrete input
`{"a": "1", "b": "2"}` the code issues `set("a", "2")` and
`set("b", "2")` — key `"a"` is never stored with its associated value
`"1"`, diverging from the intended per-key association
(`set_many_sets_spec`). -/
theorem set_many_value_leak :
    set_many_sets [("a", "1"), ("b", "2")] = [("a", "2"), ("b", "2")]
    ∧ set_many_sets [("a", "1"), ("b", "2")]
        ≠ set_many_sets_spec [("a", "1"), ("b", "2")]
    ∧ ("a", "1") ∉ set_many_sets [("a", "1"), ("b", "2")] := by
  refine ⟨by decide, by decide, by decide⟩

/-- C10: a `Client` constructed without an explicit `ignore_exc`
argument passes `ignore_exc=True` to every Connection it creates,
while a directly constructed `Connection` defaults `ignore_exc` to
`False`; consequently, on a default Client's connection a
transport-level failure during a store completes with the degraded
result `None` instead of raising. -/
theorem client_default_ignore_exc :
    ({} : ClientArgs).ignore_exc = true
  ∧ ({} : ConnectionArgs).ignore_exc = false
  ∧ (∀ a : ClientArgs, (client_server_args a).ignore_exc = a.ignore_exc)
  ∧ (∀ now name key expire data cas msg,
       strContains key ' ' = false →
       strAll key (fun c => c.toNat < 128) = true →
       strAll data (fun c => c.toNat < 128) = true →
       (store_cmd (initConnState (client_server_args {})) now none name key
           expire false data cas [.fail msg]).outcome
         = .completed (some none)) := by
  refine ⟨rfl, rfl, fun a => rfl, ?_⟩
  intro now name key expire data cas msg hsp hkey hdata
  have hv : store_validate none key data = .ok (key, data, 0) := by
    simp [store_validate, serApply, pyStr, hsp, hkey, hdata, except_ok_bind]
  have hst : initConnState (client_server_args {})
      = ⟨true, 0, 30, false⟩ := rfl
  have hc : connect ⟨true, 0, 30, false⟩ now
      = .ok (⟨true, 0, 30, true⟩, [.tcpConnect]) := by
    unfold connect
    rw [if_neg (by simp), if_neg (by simp)]
  unfold store_cmd
  rw [hst, hv, hc]
  dsimp only
  rw [if_neg (by decide)]
  have hread : (store_read_reply name [NetEvent.fail msg]).2
      = .error (.ioError msg) := rfl
  rw [hread]
  dsimp only
  exact exceptEpilogue_ignore_outcome _ _ _ _ _ rfl

/-- Witness for C10: a concrete transport failure on a default
Client's connection degrades to None. -/
theorem client_default_ignore_exc_witness :
    (store_cmd (initConnState (client_server_args {})) 5 none "set" "k"
        0 false "v" none [.fail "boom"]).outcome
      = .completed (some none) :=
  client_default_ignore_exc.2.2.2 5 "set" "k" 0 "v" none "boom"
    (by decide) (by decide) (by decide)

end Torncache
